import Mathlib

/-!
Verification development for the recommendation-api ranking and composition
engine: a shallow embedding of the slate-lineup dedup/limit pass
(`HomeDispatch._dedupe_and_limit`), the topic-level dedupe and Thompson
sampling ranker (`app/models/topic_recommendations.py`), the item-to-item
dispatch fallback policy (`app/data_providers/dispatch.py`), and the
publisher-spread algorithm, together with theorems settling the frozen
claims about them.
-/

namespace RecApi

/-- Corpus item: identity is its `id` string (CorpusItemModel). -/
structure CorpusItemModel where
  id : String
  deriving DecidableEq, Repr

/-- One corpus recommendation wrapping a corpus item (CorpusRecommendationModel). -/
structure CorpusRecommendationModel where
  corpus_item : CorpusItemModel
  deriving DecidableEq, Repr

/-- A slate: a headline plus an ordered list of recommendations (CorpusSlateModel). -/
structure CorpusSlateModel where
  headline : String
  recommendations : List CorpusRecommendationModel
  deriving DecidableEq, Repr

/-- Modelled from the spec: `CorpusSlateModel.corpus_item_ids` (the file
app/models/corpus_slate_model.py is not part of the provided sources); per
the spec the seen set receives "this slate's (post-truncation) item ids",
so this returns the item ids of the slate's recommendations, in order. -/
def CorpusSlateModel.corpus_item_ids (s : CorpusSlateModel) : List String :=
  s.recommendations.map (fun r => r.corpus_item.id)

/-- Modelled from the spec: `CorpusSlateModel.remove_corpus_items` (the file
app/models/corpus_slate_model.py is not part of the provided sources); per
the spec it removes "any of its recommendations whose item id is already in
the seen set". -/
def CorpusSlateModel.remove_corpus_items (s : CorpusSlateModel) (seen : List String) :
    CorpusSlateModel :=
  { s with recommendations :=
      s.recommendations.filter (fun r => !decide (r.corpus_item.id ∈ seen)) }

/-- Modelled from the spec: `CorpusSlateModel.limit` (the file
app/models/corpus_slate_model.py is not part of the provided sources); per
the spec it truncates "the (already deduped) slate to at most
`recommendation_count` items". -/
def CorpusSlateModel.limit (s : CorpusSlateModel) (count : Nat) : CorpusSlateModel :=
  { s with recommendations := s.recommendations.take count }

/-- Item ids of a list of slates, concatenated in order. -/
def allIds : List CorpusSlateModel → List String
  | [] => []
  | s :: rest => s.corpus_item_ids ++ allIds rest

/-- The loop body of `HomeDispatch._dedupe_and_limit` (dispatch.py lines
216-223): traverse the slates in order carrying the running seen set; each
slate is deduped against the seen set, truncated, and only then are its
retained ids added to the seen set. -/
def dedupeAndLimitGo (count : Nat) (seen : List String) :
    List CorpusSlateModel → List CorpusSlateModel
  | [] => []
  | s :: rest =>
    let s' := (s.remove_corpus_items seen).limit count
    s' :: dedupeAndLimitGo count (seen ++ s'.corpus_item_ids) rest

/-- `HomeDispatch._dedupe_and_limit` (dispatch.py lines 206-223): starts
with an empty seen set. -/
def dedupe_and_limit (slates : List CorpusSlateModel) (count : Nat) :
    List CorpusSlateModel :=
  dedupeAndLimitGo count [] slates

/-- Slates used by the unit test `TestHomeDispatch.test_dedupe_and_limit`. -/
def mkSlate (h : String) (ids : List String) : CorpusSlateModel :=
  ⟨h, ids.map (fun i => ⟨⟨i⟩⟩)⟩

def testHomeSlates : List CorpusSlateModel :=
  [ mkSlate "Recommended Reads" ["Tech2", "Ent4"]
  , mkSlate "Collections" ["Tech1", "Ent2", "Self1"]
  , mkSlate "Technology" ["Tech1", "Tech2", "Tech3", "Tech4"]
  , mkSlate "Entertainment" ["Ent1", "Ent2", "Ent3"]
  , mkSlate "Self-improvement" ["Self1"] ]

lemma length_dedupeAndLimitGo (count : Nat) (seen : List String)
    (slates : List CorpusSlateModel) :
    (dedupeAndLimitGo count seen slates).length = slates.length := by
  induction slates generalizing seen with
  | nil => rfl
  | cons s rest ih => simp [dedupeAndLimitGo, ih]

lemma not_mem_seen_of_mem_ids_process {s : CorpusSlateModel} {seen : List String}
    {count : Nat} {x : String}
    (hx : x ∈ ((s.remove_corpus_items seen).limit count).corpus_item_ids) :
    x ∉ seen := by
  simp only [CorpusSlateModel.corpus_item_ids, CorpusSlateModel.limit,
    CorpusSlateModel.remove_corpus_items, List.mem_map] at hx
  obtain ⟨r, hr, hrx⟩ := hx
  have hr' := List.mem_of_mem_take hr
  rw [List.mem_filter] at hr'
  have := hr'.2
  simp only [Bool.not_eq_true', decide_eq_false_iff_not] at this
  rw [← hrx]
  exact this

lemma dedupeAndLimitGo_ids_not_mem_seen (count : Nat) :
    ∀ (slates : List CorpusSlateModel) (seen : List String),
      ∀ s' ∈ dedupeAndLimitGo count seen slates, ∀ x ∈ s'.corpus_item_ids, x ∉ seen := by
  intro slates
  induction slates with
  | nil => intro seen s' hs'; simp [dedupeAndLimitGo] at hs'
  | cons s rest ih =>
    intro seen s' hs' x hx
    simp only [dedupeAndLimitGo, List.mem_cons] at hs'
    rcases hs' with h | h
    · subst h
      exact not_mem_seen_of_mem_ids_process hx
    · have := ih (seen ++ ((s.remove_corpus_items seen).limit count).corpus_item_ids)
        s' h x hx
      intro hmem
      exact this (List.mem_append_left _ hmem)

lemma dedupeAndLimitGo_pairwise_disjoint (count : Nat) :
    ∀ (slates : List CorpusSlateModel) (seen : List String),
      List.Pairwise (fun a b => ∀ x ∈ a.corpus_item_ids, x ∉ b.corpus_item_ids)
        (dedupeAndLimitGo count seen slates) := by
  intro slates
  induction slates with
  | nil => intro seen; simp [dedupeAndLimitGo]
  | cons s rest ih =>
    intro seen
    simp only [dedupeAndLimitGo]
    refine List.Pairwise.cons ?_ (ih _)
    intro b hb x hx hxb
    have := dedupeAndLimitGo_ids_not_mem_seen count rest
      (seen ++ ((s.remove_corpus_items seen).limit count).corpus_item_ids) b hb x hxb
    exact this (List.mem_append_right _ hx)

lemma dedupeAndLimitGo_length_le (count : Nat) :
    ∀ (slates : List CorpusSlateModel) (seen : List String),
      ∀ s' ∈ dedupeAndLimitGo count seen slates, s'.recommendations.length ≤ count := by
  intro slates
  induction slates with
  | nil => intro seen s' hs'; simp [dedupeAndLimitGo] at hs'
  | cons s rest ih =>
    intro seen s' hs'
    simp only [dedupeAndLimitGo, List.mem_cons] at hs'
    rcases hs' with h | h
    · subst h
      simp [CorpusSlateModel.limit]
    · exact ih _ s' h

lemma dedupeAndLimitGo_getElem? (count : Nat) :
    ∀ (slates : List CorpusSlateModel) (seen : List String) (j : Nat),
      (dedupeAndLimitGo count seen slates)[j]? =
        (slates[j]?).map (fun s =>
          (s.remove_corpus_items
            (seen ++ allIds ((dedupeAndLimitGo count seen slates).take j))).limit count) := by
  intro slates
  induction slates with
  | nil => intro seen j; simp [dedupeAndLimitGo]
  | cons s rest ih =>
    intro seen j
    cases j with
    | zero =>
      simp [dedupeAndLimitGo, allIds]
    | succ j =>
      simp only [dedupeAndLimitGo, List.getElem?_cons_succ, List.take_succ_cons, allIds,
        ← List.append_assoc]
      exact ih _ j

/-- C1: the Dedup-and-Limit pass processes slates in order; the output has
the same length as the input; no item id appears in two output slates;
every output slate holds at most `count` recommendations; and slate `j` of
the output equals input slate `j` deduped against exactly the ids retained
in output slates `0..j-1` (so an item cut from an earlier slate by
truncation does not block the same item later) and then truncated to
`count`. -/
theorem dedupe_and_limit_spec (slates : List CorpusSlateModel) (count : Nat) :
    (dedupe_and_limit slates count).length = slates.length
    ∧ List.Pairwise (fun a b => ∀ x ∈ a.corpus_item_ids, x ∉ b.corpus_item_ids)
        (dedupe_and_limit slates count)
    ∧ (∀ s' ∈ dedupe_and_limit slates count, s'.recommendations.length ≤ count)
    ∧ ∀ j : Nat,
        (dedupe_and_limit slates count)[j]? =
          (slates[j]?).map (fun s =>
            (s.remove_corpus_items
              (allIds ((dedupe_and_limit slates count).take j))).limit count) := by
  refine ⟨length_dedupeAndLimitGo count [] slates,
    dedupeAndLimitGo_pairwise_disjoint count slates [],
    dedupeAndLimitGo_length_le count slates [], ?_⟩
  intro j
  have := dedupeAndLimitGo_getElem? count slates [] j
  simpa [dedupe_and_limit] using this

/-- C1 witness: instantiating the spec at the unit test's slates with
`recommendation_count = 2`; the "Technology" output slate (deduped to
Tech3, Tech4) is a member of the output and respects the limit. -/
theorem dedupe_and_limit_spec_witness :
    (mkSlate "Technology" ["Tech3", "Tech4"]).recommendations.length ≤ 2 :=
  (dedupe_and_limit_spec testHomeSlates 2).2.2.1
    (mkSlate "Technology" ["Tech3", "Tech4"]) (by decide)

lemma process_length_le (s : CorpusSlateModel) (seen : List String) (count : Nat) :
    ((s.remove_corpus_items seen).limit count).recommendations.length ≤ count := by
  simp [CorpusSlateModel.limit]

lemma process_fixed {s' : CorpusSlateModel} {seen : List String} {count : Nat}
    (hlen : s'.recommendations.length ≤ count)
    (hids : ∀ x ∈ s'.corpus_item_ids, x ∉ seen) :
    (s'.remove_corpus_items seen).limit count = s' := by
  have hfilter :
      s'.recommendations.filter (fun r => !decide (r.corpus_item.id ∈ seen)) =
        s'.recommendations := by
    rw [List.filter_eq_self]
    intro r hr
    simp only [Bool.not_eq_true', decide_eq_false_iff_not]
    exact hids _ (List.mem_map_of_mem _ hr)
  simp only [CorpusSlateModel.remove_corpus_items, CorpusSlateModel.limit, hfilter,
    List.take_of_length_le hlen]

lemma dedupeAndLimitGo_idem (count : Nat) :
    ∀ (slates : List CorpusSlateModel) (seen₁ seen₂ : List String),
      (∀ x ∈ seen₂, x ∈ seen₁) →
      dedupeAndLimitGo count seen₂ (dedupeAndLimitGo count seen₁ slates) =
        dedupeAndLimitGo count seen₁ slates := by
  intro slates
  induction slates with
  | nil => intro seen₁ seen₂ _; rfl
  | cons s rest ih =>
    intro seen₁ seen₂ hsub
    show dedupeAndLimitGo count seen₂
        (((s.remove_corpus_items seen₁).limit count) ::
          dedupeAndLimitGo count
            (seen₁ ++ ((s.remove_corpus_items seen₁).limit count).corpus_item_ids) rest) = _
    have hids : ∀ x ∈ ((s.remove_corpus_items seen₁).limit count).corpus_item_ids,
        x ∉ seen₂ := by
      intro x hx hmem
      exact not_mem_seen_of_mem_ids_process hx (hsub x hmem)
    have hfix := process_fixed (process_length_le s seen₁ count) hids
    show ((((s.remove_corpus_items seen₁).limit count).remove_corpus_items seen₂).limit count)
        :: dedupeAndLimitGo count
          (seen₂ ++
            ((((s.remove_corpus_items seen₁).limit count).remove_corpus_items
              seen₂).limit count).corpus_item_ids)
          (dedupeAndLimitGo count
            (seen₁ ++ ((s.remove_corpus_items seen₁).limit count).corpus_item_ids) rest) = _
    rw [hfix]
    show _ = ((s.remove_corpus_items seen₁).limit count) :: dedupeAndLimitGo count
      (seen₁ ++ ((s.remove_corpus_items seen₁).limit count).corpus_item_ids) rest
    congr 1
    apply ih
    intro x hx
    rcases List.mem_append.mp hx with h | h
    · exact List.mem_append_left _ (hsub x h)
    · exact List.mem_append_right _ h

/-- C4: the Dedup-and-Limit pass is idempotent: applying it a second time
to its own output, with any `recommendation_count` equal to the first run's,
leaves the output unchanged. -/
theorem dedupe_and_limit_idempotent (slates : List CorpusSlateModel) (count : Nat) :
    dedupe_and_limit (dedupe_and_limit slates count) count = dedupe_and_limit slates count :=
  dedupeAndLimitGo_idem count slates [] [] (fun _ hx => hx)

/-- A topic recommendation: identity is `item_id`; `publisher` is used by
the publisher-spread algorithm (RecommendationModel). -/
structure RecommendationModel where
  item_id : String
  publisher : String
  deriving DecidableEq, Repr

/-- Curated and algorithmic recommendation lists (TopicRecommendationsModel). -/
structure TopicRecommendationsModel where
  curated_recommendations : List RecommendationModel := []
  algorithmic_recommendations : List RecommendationModel := []
  deriving DecidableEq, Repr

/-- `TopicRecommendationsModelUtils.dedupe` (topic_recommendations.py lines
73-95): when curated and algorithmic lists share item ids, keep only the
algorithmic recommendations whose item id is not in the curated list;
otherwise return the model unchanged. -/
def dedupe (m : TopicRecommendationsModel) : TopicRecommendationsModel :=
  let curated_item_ids := m.curated_recommendations.map (fun r => r.item_id)
  let algorithmic_item_ids := m.algorithmic_recommendations.map (fun r => r.item_id)
  let dupes := algorithmic_item_ids.filter (fun i => decide (i ∈ curated_item_ids))
  if dupes.isEmpty then m
  else
    { m with
      algorithmic_recommendations :=
        m.algorithmic_recommendations.filter (fun r => !decide (r.item_id ∈ curated_item_ids)) }

/-- C10: the topic-level dedupe returns the curated list unchanged; its
algorithmic output equals the input algorithmic list filtered to the
recommendations whose item id is not among the curated item ids (so
survivors keep their relative order and removals are exactly the
curated-overlapping entries); afterwards no algorithmic recommendation
shares an item id with the curated list. -/
theorem dedupe_topic_spec (m : TopicRecommendationsModel) :
    (dedupe m).curated_recommendations = m.curated_recommendations
    ∧ (dedupe m).algorithmic_recommendations =
        m.algorithmic_recommendations.filter
          (fun r => !decide (r.item_id ∈ m.curated_recommendations.map (fun c => c.item_id)))
    ∧ (dedupe m).algorithmic_recommendations.Sublist m.algorithmic_recommendations
    ∧ (dedupe m).algorithmic_recommendations.filter
        (fun r => decide (r.item_id ∈ m.curated_recommendations.map (fun c => c.item_id)))
      = [] := by
  by_cases hdup :
      ((m.algorithmic_recommendations.map (fun r => r.item_id)).filter
        (fun i => decide (i ∈ m.curated_recommendations.map (fun r => r.item_id)))).isEmpty
  · have hnone : ∀ r ∈ m.algorithmic_recommendations,
        r.item_id ∉ m.curated_recommendations.map (fun c => c.item_id) := by
      intro r hr hmem
      rw [List.isEmpty_iff] at hdup
      have : r.item_id ∈
          (m.algorithmic_recommendations.map (fun r => r.item_id)).filter
            (fun i => decide (i ∈ m.curated_recommendations.map (fun r => r.item_id))) := by
        rw [List.mem_filter]
        exact ⟨List.mem_map_of_mem _ hr, by simpa using hmem⟩
      rw [hdup] at this
      exact absurd this (List.not_mem_nil _)
    have heq : dedupe m = m := by
      simp only [dedupe]
      rw [if_pos hdup]
    rw [heq]
    have hfil : m.algorithmic_recommendations.filter
        (fun r => !decide (r.item_id ∈ m.curated_recommendations.map (fun c => c.item_id)))
        = m.algorithmic_recommendations := by
      rw [List.filter_eq_self]
      intro r hr
      simpa using hnone r hr
    refine ⟨rfl, hfil.symm, List.Sublist.refl _, ?_⟩
    rw [List.filter_eq_nil_iff]
    intro r hr
    simpa using hnone r hr
  · have heq : dedupe m =
      { m with
        algorithmic_recommendations :=
          m.algorithmic_recommendations.filter (fun r => !decide (r.item_id ∈ m.curated_recommendations.map (fun c => c.item_id))) } := by
      simp only [dedupe]
      rw [if_neg hdup]
    rw [heq]
    refine ⟨rfl, rfl, List.filter_sublist _, ?_⟩
    rw [List.filter_eq_nil_iff]
    intro r hr
    rw [List.mem_filter] at hr
    simpa using hr.2

/-- One row of click data: clicks and impressions (ClickdataModel). Values
are rationals since the "default" row carries real-valued alpha/beta prior
parameters rather than counts. -/
structure ClickdataModel where
  clicks : ℚ
  impressions : ℚ
  deriving DecidableEq, Repr

/-- The mapping returned by `ClickdataModel.get_clickdata`: item id to row. -/
abbrev Clickdata := List (String × ClickdataModel)

/-- Dictionary lookup `clk_data.get(key)` / `clk_data[key]`. -/
def clkGet (m : Clickdata) (k : String) : Option ClickdataModel :=
  (m.find? (fun p => p.1 == k)).map (fun p => p.2)

/-- Prior determination of `thompson_sampling` (topic_recommendations.py
lines 127-141). The fetch outcome is a value: `none` models
`get_clickdata` raising ValueError (no results at all), in which case the
code sets `clk_data = {}` and takes the constant prior (0.02, 1.0); a
fetched map without a "default" entry models the KeyError branch, keeping
the fetched data but taking the constant prior; otherwise the "default"
entry's (clicks, impressions) become (alpha, beta). In every case a value
is produced: the absence of click data is never surfaced as an error. -/
def getPriors (fetch : Option Clickdata) : Clickdata × ℚ × ℚ :=
  match fetch with
  | none => ([], (1/50 : ℚ), 1)
  | some clk_data =>
    match clkGet clk_data "default" with
    | some d => (clk_data, d.clicks, d.impressions)
    | none => (clk_data, (1/50 : ℚ), 1)

/-- The floor 1e-18 applied to Beta parameters (topic_recommendations.py
lines 149-150). -/
def epsFloor : ℚ := 1 / 10 ^ 18

/-- Beta-distribution parameters used for a recommendation with per-item
click data: `max(clicks + alpha_prior, 1e-18)` and
`max(impressions - clicks + beta_prior, 1e-18)` (topic_recommendations.py
lines 149-150). -/
def betaParams (d : ClickdataModel) (alpha_prior beta_prior : ℚ) : ℚ × ℚ :=
  (max (d.clicks + alpha_prior) epsFloor,
   max (d.impressions - d.clicks + beta_prior) epsFloor)

/-- Scoring loop and sort of `thompson_sampling` (topic_recommendations.py
lines 143-158): `sampler i p` models the i-th random draw `beta.rvs` from
the Beta distribution with parameters `p`; a recommendation with click data
is scored with `betaParams`, one without is scored from the module prior.
The scored list is sorted descending by score (stable, as Python's
`sort(key=itemgetter(1), reverse=True)`). -/
def thompson_scored (sampler : Nat → ℚ × ℚ → ℚ) (fetch : Option Clickdata)
    (recs : List RecommendationModel) : List (RecommendationModel × ℚ) :=
  let p := getPriors fetch
  let scores := recs.enum.map (fun ir =>
    match clkGet p.1 ir.2.item_id with
    | some d => (ir.2, sampler ir.1 (betaParams d p.2.1 p.2.2))
    | none => (ir.2, sampler ir.1 (p.2.1, p.2.2)))
  scores.mergeSort (fun a b => decide (b.2 ≤ a.2))

/-- `TopicRecommendationsModelUtils.thompson_sampling`
(topic_recommendations.py lines 112-158): empty input returns immediately
(before any click-data fetch); otherwise the recommendations are returned
in descending order of their sampled scores. -/
def thompson_sampling (sampler : Nat → ℚ × ℚ → ℚ) (fetch : Option Clickdata)
    (recs : List RecommendationModel) : List RecommendationModel :=
  if recs.isEmpty then recs
  else (thompson_scored sampler fetch recs).map Prod.fst

/-- C2: the prior is the "default" entry's (clicks, impressions) when that
entry is present; when the fetch returns no results at all, or the fetched
data has no "default" entry, the constant prior (alpha, beta) = (0.02, 1.0)
is used; every fetch outcome yields a prior, so the absence is never
surfaced as an error. -/
theorem thompson_prior_selection :
    (∀ (m : Clickdata) (d : ClickdataModel), clkGet m "default" = some d →
        getPriors (some m) = (m, d.clicks, d.impressions))
    ∧ getPriors none = ([], (1/50 : ℚ), 1)
    ∧ (∀ m : Clickdata, clkGet m "default" = none →
        getPriors (some m) = (m, (1/50 : ℚ), 1)) := by
  refine ⟨?_, rfl, ?_⟩
  · intro m d h
    simp [getPriors, h]
  · intro m h
    simp [getPriors, h]

/-- C2 witness: a map whose "default" row is (3, 7) yields prior (3, 7); a
map with only item rows yields the constant prior (1/50, 1) = (0.02, 1.0). -/
theorem thompson_prior_selection_witness :
    getPriors (some [("default", ⟨3, 7⟩)]) = ([("default", ⟨3, 7⟩)], 3, 7)
    ∧ getPriors (some [("999", ⟨9, 9⟩)]) = ([("999", ⟨9, 9⟩)], (1/50 : ℚ), 1) :=
  ⟨thompson_prior_selection.1 [("default", ⟨3, 7⟩)] ⟨3, 7⟩ (by decide),
   thompson_prior_selection.2.2 [("999", ⟨9, 9⟩)] (by decide)⟩

/-- C3: both Beta parameters computed for an item with click data are
strictly positive, for every click-data row and every prior — including
malformed data where impressions minus clicks is negative — because each is
floored at 1e-18. -/
theorem thompson_beta_params_pos (d : ClickdataModel) (alpha_prior beta_prior : ℚ) :
    0 < (betaParams d alpha_prior beta_prior).1
    ∧ 0 < (betaParams d alpha_prior beta_prior).2 := by
  have h : (0 : ℚ) < epsFloor := by norm_num [epsFloor]
  exact ⟨lt_of_lt_of_le h (le_max_right _ _), lt_of_lt_of_le h (le_max_right _ _)⟩

lemma thompson_scored_map_fst_perm (sampler : Nat → ℚ × ℚ → ℚ) (fetch : Option Clickdata)
    (recs : List RecommendationModel) :
    ((thompson_scored sampler fetch recs).map Prod.fst).Perm recs := by
  unfold thompson_scored
  refine List.Perm.trans (List.Perm.map _ (List.mergeSort_perm _ _)) ?_
  rw [List.map_map]
  have hcomp : ∀ ir : Nat × RecommendationModel,
      (Prod.fst ∘ fun ir : Nat × RecommendationModel =>
        match clkGet (getPriors fetch).1 ir.2.item_id with
        | some d => (ir.2, sampler ir.1 (betaParams d (getPriors fetch).2.1 (getPriors fetch).2.2))
        | none => (ir.2, sampler ir.1 ((getPriors fetch).2.1, (getPriors fetch).2.2))) ir
      = ir.2 := by
    intro ir
    simp only [Function.comp_apply]
    cases h : clkGet (getPriors fetch).1 ir.2.item_id <;> simp [h]
  rw [List.map_congr_left (fun ir _ => hcomp ir), List.enum_map_snd]

/-- C8: the Thompson-sampling ranker returns a permutation of its input,
in descending order of sampled scores (the scored list it sorts is
pairwise descending), and on the empty input it returns the empty list for
every fetch outcome — the result does not depend on click data at all. -/
theorem thompson_sampling_perm_sorted (sampler : Nat → ℚ × ℚ → ℚ)
    (fetch : Option Clickdata) (recs : List RecommendationModel) :
    (thompson_sampling sampler fetch recs).Perm recs
    ∧ (thompson_scored sampler fetch recs).Pairwise (fun a b => b.2 ≤ a.2)
    ∧ thompson_sampling sampler fetch [] = [] := by
  refine ⟨?_, ?_, rfl⟩
  · unfold thompson_sampling
    by_cases h : recs.isEmpty
    · rw [if_pos h]
    · rw [if_neg h]
      exact thompson_scored_map_fst_perm sampler fetch recs
  · have := @List.sorted_mergeSort (RecommendationModel × ℚ)
      (fun a b => decide (b.2 ≤ a.2))
      (fun a b c hab hbc => by
        simp only [decide_eq_true_eq] at *
        exact le_trans hbc hab)
      (fun a b => by
        simp only [Bool.or_eq_true, decide_eq_true_eq]
        exact le_total b.2 a.2)
      ((getPriors fetch).1 |> fun clk =>
        recs.enum.map (fun ir =>
          match clkGet clk ir.2.item_id with
          | some d => (ir.2, sampler ir.1 (betaParams d (getPriors fetch).2.1 (getPriors fetch).2.2))
          | none => (ir.2, sampler ir.1 ((getPriors fetch).2.1, (getPriors fetch).2.2))))
    refine List.Pairwise.imp ?_ this
    intro a b hab
    simpa using hab

/-- Modelled from the spec: the exception classes `Item2ItemError` and
`QdrantError` of app/data_providers/item2item.py are not in the provided
sources; per the spec the broad backend-unavailability error (QdrantError)
is "distinct from the per-entry-point Item2Item error", so the two are
separate error values. -/
inductive I2IError where
  | item2item
  | qdrant
  deriving DecidableEq, Repr

/-- Outcomes of the item-similarity queries issued by `Item2ItemDispatch`
for one request: each field is the result of the corresponding awaited
call on the `Item2ItemRecommender` client (the client itself is external
I/O; an `Except.error` models the call raising). -/
structure Item2ItemRecommender where
  related : Except I2IError (List CorpusItemModel)
  syndicated : Except I2IError (List CorpusItemModel)
  by_publisher : Except I2IError (List CorpusItemModel)
  frequently_saved : Except I2IError (List CorpusItemModel)
  frequently_saved_syndicated : Except I2IError (List CorpusItemModel)
  random_by_publisher : Except I2IError (List CorpusItemModel)

/-- `Item2ItemDispatch._sample` (dispatch.py lines 81-85): randomly sample
`count` articles when more are available, then wrap each item in a
`CorpusRecommendationModel`; `pick` models `random.sample`. -/
def sample (pick : List CorpusItemModel → Nat → List CorpusItemModel)
    (recs : List CorpusItemModel) (count : Nat) : List CorpusRecommendationModel :=
  (if count < recs.length then pick recs count else recs).map (fun r => ⟨r⟩)

/-- The `_empty_on_error` decorator (dispatch.py lines 31-39): a QdrantError
outcome becomes an empty recommendation list; everything else passes
through. -/
def empty_on_error (act : Except I2IError (List CorpusRecommendationModel)) :
    Except I2IError (List CorpusRecommendationModel) :=
  match act with
  | .error .qdrant => .ok []
  | x => x

namespace Item2ItemDispatch

/-- `Item2ItemDispatch.after_save` (dispatch.py lines 46-52): on
Item2ItemError from the primary `related` lookup, the candidate list
becomes empty — no fallback query — and sampling proceeds; any other
error propagates (this entry point is not decorated with
`_empty_on_error`). -/
def after_save (pick : List CorpusItemModel → Nat → List CorpusItemModel)
    (r : Item2ItemRecommender) (count : Nat) :
    Except I2IError (List CorpusRecommendationModel) :=
  match r.related with
  | .ok recs => .ok (sample pick recs count)
  | .error .item2item => .ok (sample pick [] count)
  | .error e => .error e

/-- `Item2ItemDispatch.after_article` (dispatch.py lines 54-61): primary
`related` lookup, fallback to `frequently_saved` on Item2ItemError, all
wrapped in `_empty_on_error`. -/
def after_article (pick : List CorpusItemModel → Nat → List CorpusItemModel)
    (r : Item2ItemRecommender) (count : Nat) :
    Except I2IError (List CorpusRecommendationModel) :=
  empty_on_error
    (match r.related with
     | .ok recs => .ok (sample pick recs count)
     | .error .item2item =>
       match r.frequently_saved with
       | .ok recs => .ok (sample pick recs count)
       | .error e => .error e
     | .error e => .error e)

/-- `Item2ItemDispatch.syndicated` (dispatch.py lines 63-70): primary
`syndicated` lookup, fallback to syndicated `frequently_saved` on
Item2ItemError, all wrapped in `_empty_on_error`. -/
def syndicated (pick : List CorpusItemModel → Nat → List CorpusItemModel)
    (r : Item2ItemRecommender) (count : Nat) :
    Except I2IError (List CorpusRecommendationModel) :=
  empty_on_error
    (match r.syndicated with
     | .ok recs => .ok (sample pick recs count)
     | .error .item2item =>
       match r.frequently_saved_syndicated with
       | .ok recs => .ok (sample pick recs count)
       | .error e => .error e
     | .error e => .error e)

/-- `Item2ItemDispatch.by_publisher` (dispatch.py lines 72-79): primary
`by_publisher` lookup, fallback to `random_by_publisher` on
Item2ItemError, all wrapped in `_empty_on_error`. -/
def by_publisher (pick : List CorpusItemModel → Nat → List CorpusItemModel)
    (r : Item2ItemRecommender) (count : Nat) :
    Except I2IError (List CorpusRecommendationModel) :=
  empty_on_error
    (match r.by_publisher with
     | .ok recs => .ok (sample pick recs count)
     | .error .item2item =>
       match r.random_by_publisher with
       | .ok recs => .ok (sample pick recs count)
       | .error e => .error e
     | .error e => .error e)

end Item2ItemDispatch

/-- C6: when the primary similarity lookup fails with an Item2ItemError,
`after_save` returns the empty list, for every requested count; and its
result depends only on the primary lookup's outcome — no secondary
fallback query is ever consulted. -/
theorem after_save_item2item_empty_no_fallback
    (pick : List CorpusItemModel → Nat → List CorpusItemModel) (count : Nat) :
    (∀ r : Item2ItemRecommender, r.related = .error .item2item →
        Item2ItemDispatch.after_save pick r count = .ok [])
    ∧ (∀ r₁ r₂ : Item2ItemRecommender, r₁.related = r₂.related →
        Item2ItemDispatch.after_save pick r₁ count =
          Item2ItemDispatch.after_save pick r₂ count) := by
  constructor
  · intro r h
    simp [Item2ItemDispatch.after_save, h, sample]
  · intro r₁ r₂ h
    simp only [Item2ItemDispatch.after_save, h]

/-- C6 witness: a recommender whose `related` call raised Item2ItemError,
with a non-empty fallback pool available, still yields the empty list. -/
theorem after_save_item2item_empty_no_fallback_witness :
    Item2ItemDispatch.after_save (fun l n => l.take n)
      { related := .error .item2item, syndicated := .ok [], by_publisher := .ok [],
        frequently_saved := .ok [⟨"fs1"⟩], frequently_saved_syndicated := .ok [],
        random_by_publisher := .ok [] } 5 = .ok [] :=
  (after_save_item2item_empty_no_fallback (fun l n => l.take n) 5).1 _ rfl

/-- C7: for `after_article`, `syndicated`, and `by_publisher`, a
QdrantError raised by the primary lookup, or by the fallback lookup after
an Item2ItemError from the primary, results in the empty list instead of
an error. -/
theorem entry_points_empty_on_qdrant
    (pick : List CorpusItemModel → Nat → List CorpusItemModel) (count : Nat)
    (r : Item2ItemRecommender) :
    (r.related = .error .qdrant →
        Item2ItemDispatch.after_article pick r count = .ok [])
    ∧ (r.related = .error .item2item → r.frequently_saved = .error .qdrant →
        Item2ItemDispatch.after_article pick r count = .ok [])
    ∧ (r.syndicated = .error .qdrant →
        Item2ItemDispatch.syndicated pick r count = .ok [])
    ∧ (r.syndicated = .error .item2item →
        r.frequently_saved_syndicated = .error .qdrant →
        Item2ItemDispatch.syndicated pick r count = .ok [])
    ∧ (r.by_publisher = .error .qdrant →
        Item2ItemDispatch.by_publisher pick r count = .ok [])
    ∧ (r.by_publisher = .error .item2item → r.random_by_publisher = .error .qdrant →
        Item2ItemDispatch.by_publisher pick r count = .ok []) := by
  refine ⟨?_, ?_, ?_, ?_, ?_, ?_⟩
  · intro h; simp [Item2ItemDispatch.after_article, h, empty_on_error]
  · intro h h'; simp [Item2ItemDispatch.after_article, h, h', empty_on_error]
  · intro h; simp [Item2ItemDispatch.syndicated, h, empty_on_error]
  · intro h h'; simp [Item2ItemDispatch.syndicated, h, h', empty_on_error]
  · intro h; simp [Item2ItemDispatch.by_publisher, h, empty_on_error]
  · intro h h'; simp [Item2ItemDispatch.by_publisher, h, h', empty_on_error]

/-- C7 witness: a recommender whose primary `related` and `by_publisher`
calls raised QdrantError, and whose `syndicated` call raised
Item2ItemError with the fallback raising QdrantError, yields empty lists
from all three entry points. -/
theorem entry_points_empty_on_qdrant_witness :
    Item2ItemDispatch.after_article (fun l n => l.take n)
        { related := .error .qdrant, syndicated := .error .item2item,
          by_publisher := .error .qdrant, frequently_saved := .ok [⟨"fs1"⟩],
          frequently_saved_syndicated := .error .qdrant,
          random_by_publisher := .ok [] } 5 = .ok []
    ∧ Item2ItemDispatch.syndicated (fun l n => l.take n)
        { related := .error .qdrant, syndicated := .error .item2item,
          by_publisher := .error .qdrant, frequently_saved := .ok [⟨"fs1"⟩],
          frequently_saved_syndicated := .error .qdrant,
          random_by_publisher := .ok [] } 5 = .ok []
    ∧ Item2ItemDispatch.by_publisher (fun l n => l.take n)
        { related := .error .qdrant, syndicated := .error .item2item,
          by_publisher := .error .qdrant, frequently_saved := .ok [⟨"fs1"⟩],
          frequently_saved_syndicated := .error .qdrant,
          random_by_publisher := .ok [] } 5 = .ok [] :=
  ⟨(entry_points_empty_on_qdrant (fun l n => l.take n) 5 _).1 rfl,
   (entry_points_empty_on_qdrant (fun l n => l.take n) 5 _).2.2.2.1 rfl rfl,
   (entry_points_empty_on_qdrant (fun l n => l.take n) 5 _).2.2.2.2.1 rfl⟩

/-- C9: `after_save` is not wrapped by the empty-on-error decorator: a
QdrantError from its primary lookup propagates to the caller, while an
Item2ItemError — the only exception caught there — yields the empty
list. -/
theorem after_save_propagates_qdrant
    (pick : List CorpusItemModel → Nat → List CorpusItemModel) (count : Nat)
    (r : Item2ItemRecommender) :
    (r.related = .error .qdrant →
        Item2ItemDispatch.after_save pick r count = .error .qdrant)
    ∧ (r.related = .error .item2item →
        Item2ItemDispatch.after_save pick r count = .ok []) := by
  constructor
  · intro h; simp [Item2ItemDispatch.after_save, h]
  · intro h; simp [Item2ItemDispatch.after_save, h, sample]

/-- C9 witness: a recommender whose `related` call raised QdrantError makes
`after_save` report that error, unlike the decorated entry points. -/
theorem after_save_propagates_qdrant_witness :
    Item2ItemDispatch.after_save (fun l n => l.take n)
      { related := .error .qdrant, syndicated := .ok [], by_publisher := .ok [],
        frequently_saved := .ok [⟨"fs1"⟩], frequently_saved_syndicated := .ok [],
        random_by_publisher := .ok [] } 5 = .error .qdrant :=
  (after_save_propagates_qdrant (fun l n => l.take n) 5 _).1 rfl

/-- Remove the first element satisfying `p`, returning it and the rest in
order. -/
def extractFirst (p : RecommendationModel → Bool) :
    List RecommendationModel → Option (RecommendationModel × List RecommendationModel)
  | [] => none
  | x :: xs => if p x then some (x, xs)
      else (extractFirst p xs).map (fun q => (q.1, x :: q.2))

/-- Modelled from the spec: the walk of `spread_publishers`
(app/rankers/algorithms.py, not in the provided sources; spec section 4.3).
`acc` holds the already-placed items in reverse, so the publishers of the
last `spread` placed positions are `(acc.take spread).map publisher`. When
the current item's publisher matches one of them, the nearest subsequent
item with a publisher outside that window is swapped into the current
position (a stable local insertion); when no such candidate exists the walk
gives up and leaves the remainder in original relative order. The fuel
equals the number of items still to place, which drops by one each step. -/
def spreadGo (spread : Nat) :
    Nat → List RecommendationModel → List RecommendationModel → List RecommendationModel
  | 0, acc, rest => acc.reverse ++ rest
  | fuel+1, acc, rest =>
    match rest with
    | [] => acc.reverse
    | r :: rest' =>
      let window := (acc.take spread).map (fun x => x.publisher)
      if r.publisher ∈ window then
        match extractFirst (fun x => !decide (x.publisher ∈ window)) rest' with
        | some q => spreadGo spread fuel (q.1 :: acc) (r :: q.2)
        | none => acc.reverse ++ rest
      else spreadGo spread fuel (r :: acc) rest'

/-- Modelled from the spec: `spread_publishers`
(app/rankers/algorithms.py, not in the provided sources; spec section 4.3):
walk the sequence left to right maintaining the last `spread` publishers
seen. This model reproduces all four unit tests in
tests/unit/rankers/test_algorithms.py (single reorder, multiple reorder,
give up at the end, cannot spread). -/
def spread_publishers (recs : List RecommendationModel) (spread : Nat) :
    List RecommendationModel :=
  spreadGo spread recs.length [] recs

/-- A sequence achieves the spread when no publisher recurs within any
window of `k` consecutive positions. -/
def spreadOkB (k : Nat) : List RecommendationModel → Bool
  | [] => true
  | r :: rest =>
    ((rest.take (k-1)).all (fun x => x.publisher != r.publisher)) && spreadOkB k rest

def mkRecs (ids : List Nat) (pubs : List String) : List RecommendationModel :=
  (ids.zip pubs).map (fun p => ⟨toString p.1, p.2⟩)

/-- The input of `test_spread_publishers_single_reorder`, whose publisher
sequence is the claim's concrete [A,B,C,A,D,E,B,F]. -/
def singleReorderRecs : List RecommendationModel :=
  mkRecs [1,2,3,4,5,6,7,8]
    ["thedude.com","walter.com","donnie.com","thedude.com",
     "innout.com","bowling.com","walter.com","abides.com"]

/-- The input of `test_spread_publishers_cannot_spread` (insufficient
publisher variance). -/
def cannotSpreadRecs : List RecommendationModel :=
  mkRecs [1,2,3,4,5,6,7,8]
    ["thedude.com","abides.com","donnie.com","donnie.com",
     "thedude.com","thedude.com","abides.com","donnie.com"]

/-- Publishers [pubA, pubA, pubB]: no reordering places the two pubA items
three or more positions apart, yet the walk still performs a swap. -/
def twoOfThreeSameRecs : List RecommendationModel :=
  [⟨"1", "pubA"⟩, ⟨"2", "pubA"⟩, ⟨"3", "pubB"⟩]

example :
    (spread_publishers (mkRecs [1,2,3,4,5,6,7,8]
      ["thedude.com","walter.com","walter.com","thedude.com",
       "innout.com","innout.com","donnie.com","abides.com"]) 3).map (fun r => r.item_id)
    = ["1", "2", "5", "7", "4", "3", "6", "8"] := by decide

example :
    (spread_publishers (mkRecs [1,2,3,4,5,6,7,8]
      ["thedude.com","abides.com","walter.com","donnie.com",
       "donnie.com","innout.com","donnie.com","innout.com"]) 3).map (fun r => r.item_id)
    = ["1", "2", "3", "4", "6", "5", "7", "8"] := by decide

lemma spreadOkB_three_false {a b c : RecommendationModel}
    (h : a.publisher = b.publisher ∨ a.publisher = c.publisher
      ∨ b.publisher = c.publisher) :
    spreadOkB 3 [a, b, c] = false := by
  simp only [spreadOkB, List.take, List.all_cons, List.all_nil, Bool.and_true,
    Bool.and_eq_false_imp, Bool.and_eq_false_iff, bne_eq_false_iff_eq]
  rcases h with h | h | h
  · simp [bne_iff_ne, h.symm]
  · simp [bne_iff_ne, h.symm]
  · simp [bne_iff_ne, h.symm]

/-- C5 counterexample: with publishers [pubA, pubA, pubB] and min_spread 3,
no reordering achieves the spread (every permutation keeps the two pubA
items within two positions of each other), yet the publisher-spread
function is not the identity on this input — it swaps pubB forward. So the
function is not the identity on every input for which no valid reordering
achieves the spread. -/
theorem spread_publishers_claim_counterexample :
    (¬ ∃ l' : List RecommendationModel,
        l'.Perm twoOfThreeSameRecs ∧ spreadOkB 3 l' = true)
    ∧ spread_publishers twoOfThreeSameRecs 3 ≠ twoOfThreeSameRecs := by
  constructor
  · rintro ⟨l', hperm, hok⟩
    have hlen : l'.length = 3 := by
      rw [hperm.length_eq]; rfl
    obtain ⟨a, l₁⟩ : ∃ a l₁, l' = a :: l₁ := by
      cases l' with
      | nil => simp at hlen
      | cons a t => exact ⟨a, t, rfl⟩
    obtain ⟨t, rfl⟩ := l₁
    obtain ⟨b, l₂⟩ : ∃ b l₂, t = b :: l₂ := by
      cases t with
      | nil => simp at hlen
      | cons b t' => exact ⟨b, t', rfl⟩
    obtain ⟨t', rfl⟩ := l₂
    obtain ⟨c, l₃⟩ : ∃ c l₃, t' = c :: l₃ := by
      cases t' with
      | nil => simp at hlen
      | cons c t'' => exact ⟨c, t'', rfl⟩
    obtain ⟨t'', rfl⟩ := l₃
    have hnil : t'' = [] := by
      have hl : t''.length = 0 := by
        simp only [List.length_cons] at hlen
        omega
      exact List.eq_nil_of_length_eq_zero hl
    subst hnil
    have hcount :
        List.count "pubA" ((a :: b :: c :: []).map (fun r => r.publisher)) = 2 := by
      rw [(hperm.map (fun r => r.publisher)).count_eq]
      rfl
    simp only [List.map_cons, List.map_nil, List.count_cons, List.count_nil] at hcount
    have hdup : a.publisher = b.publisher ∨ a.publisher = c.publisher
        ∨ b.publisher = c.publisher := by
      by_cases h1 : a.publisher = "pubA" <;>
        by_cases h2 : b.publisher = "pubA" <;>
          by_cases h3 : c.publisher = "pubA" <;>
            simp [h1, h2, h3, beq_iff_eq] at hcount ⊢
    rw [spreadOkB_three_false hdup] at hok
    exact Bool.false_ne_true hok
  · decide

/-- C5 amended: on the insufficient-variance unit-test input (publishers
[thedude, abides, donnie, donnie, thedude, thedude, abides, donnie], spread
3) the publisher-spread function is the identity, and on the concrete input
with publisher sequence [A,B,C,A,D,E,B,F] and min_spread 3 it returns the
sequence reordered to [A,B,C,D,A,E,B,F], swapping the second A with the
following D; the function is not, however, the identity on every input for
which no valid reordering achieves the spread. -/
theorem spread_publishers_amended :
    spread_publishers cannotSpreadRecs 3 = cannotSpreadRecs
    ∧ (spread_publishers singleReorderRecs 3).map (fun r => r.item_id)
        = ["1", "2", "3", "5", "4", "6", "7", "8"]
    ∧ (spread_publishers singleReorderRecs 3).map (fun r => r.publisher)
        = ["thedude.com", "walter.com", "donnie.com", "innout.com",
           "thedude.com", "bowling.com", "walter.com", "abides.com"] := by
  refine ⟨by decide, by decide, by decide⟩

end RecApi
